import Mathlib

/-!
Verification of the authenticated exchange API client implemented in
`src/ability/module/bitget_trader.py` (class `BitgetAPI`).

The development shallowly embeds the client's signing routine
(`get_signature`), its retry/backoff request loop (`request`), and the
domain methods relevant to validation short-circuiting (`post_order`,
`delete_order`).  Python machine-level details are modelled as follows:

* byte strings are `List Nat` (each entry < 256); `str.encode()` is UTF-8
  encoding, implemented concretely (`utf8Bytes`);
* `hashlib.sha256`, `hmac.new(..).digest()` and `base64.b64encode` are
  implemented concretely (`sha256`, `hmacSha256`, `base64Encode`), with all
  32-bit arithmetic carried out on `Nat` modulo `2 ^ 32`;
* `sorted(..)` (a stable sort) is embedded as `List.insertionSort`, which
  inserts an element before the run of elements of equal key and therefore
  has exactly Python's stable-sort semantics for the comparators used here;
* the network, the random jitter, and the wall clock are oracles bundled in
  an `Env`; one HTTP attempt consumes one value of the transport oracle;
* `requests` responses are modelled by their status code, optionally parsed
  JSON body, and raw text; Python dicts returned by the client are modelled
  by a `Json` value whose object fields are in insertion order.
-/

namespace BitgetTrader

/-! ### Python string helpers

`splitChar c s` is Python's `s.split(c)` for a one-character separator, and
`joinAmp` is `"&".join`. -/

def splitCharAux (c : Char) : List Char → List (List Char)
  | [] => [[]]
  | a :: as =>
    match splitCharAux c as with
    | [] => [[]]
    | p :: ps => if a = c then [] :: p :: ps else (a :: p) :: ps

def splitChar (c : Char) (s : String) : List String :=
  (splitCharAux c s.data).map String.mk

def joinAmp : List String → String
  | [] => ""
  | [s] => s
  | s :: rest => s ++ "&" ++ joinAmp rest

/-- Python `s.lstrip(c)` for the single character `c`. -/
def lstripChar (c : Char) (s : String) : String :=
  String.mk (s.data.dropWhile (fun a => a = c))

/-- Python `str.upper()` on the ASCII range (the only inputs the client
upper-cases are ASCII method and coin names).  Implemented charwise so it
reduces structurally. -/
def pyUpperChar (c : Char) : Char :=
  if 'a' ≤ c ∧ c ≤ 'z' then Char.ofNat (c.toNat - 32) else c

def pyUpper (s : String) : String :=
  String.mk (s.data.map pyUpperChar)

/-- Python `str.lower()` on the ASCII range. -/
def pyLowerChar (c : Char) : Char :=
  if 'A' ≤ c ∧ c ≤ 'Z' then Char.ofNat (c.toNat + 32) else c

def pyLower (s : String) : String :=
  String.mk (s.data.map pyLowerChar)

/-- Python `s.startswith(pre)`. -/
def pyStartswith (s pre : String) : Bool :=
  pre.data.isPrefixOf s.data

/-- The sort key used by `get_signature` for query parameters:
`lambda x: x.split('=')[0]`. -/
def keyOf (s : String) : String :=
  ((splitChar '=' s).headD "")

/-- Python's string `<`: lexicographic comparison of code points,
implemented structurally on the character lists so that it evaluates by
kernel reduction. -/
def pyStrLtb : List Char → List Char → Bool
  | [], [] => false
  | [], _ :: _ => true
  | _ :: _, [] => false
  | a :: as, b :: bs =>
    if a.toNat < b.toNat then true
    else if b.toNat < a.toNat then false
    else pyStrLtb as bs

/-- Python `a <= b` on strings, as the negation of `b < a`. -/
def pyStrLeb (a b : String) : Bool := !(pyStrLtb b.data a.data)

theorem pyStrLtb_irrefl : ∀ xs, pyStrLtb xs xs = false
  | [] => rfl
  | a :: as => by simp [pyStrLtb, pyStrLtb_irrefl as]

theorem pyStrLtb_trans : ∀ (xs ys zs : List Char), pyStrLtb xs ys = true →
    pyStrLtb ys zs = true → pyStrLtb xs zs = true := by
  intro xs
  induction xs with
  | nil =>
    intro ys zs h1 h2
    cases ys with
    | nil => exact absurd h1 (by simp [pyStrLtb])
    | cons b bs =>
      cases zs with
      | nil => exact absurd h2 (by simp [pyStrLtb])
      | cons c cs => simp [pyStrLtb]
  | cons a as ih =>
    intro ys zs h1 h2
    cases ys with
    | nil => exact absurd h1 (by simp [pyStrLtb])
    | cons b bs =>
      cases zs with
      | nil => exact absurd h2 (by simp [pyStrLtb])
      | cons c cs =>
        by_cases hac : a.toNat < c.toNat
        · simp [pyStrLtb, hac]
        · have hnab : ¬ b.toNat < a.toNat := by
            intro hba
            simp [pyStrLtb, hba] at h1
            omega
          have hnbc : ¬ c.toNat < b.toNat := by
            intro hcb
            simp [pyStrLtb, hcb] at h2
            omega
          have hnba : ¬ a.toNat < b.toNat := by omega
          have hncb : ¬ b.toNat < c.toNat := by omega
          have hca : ¬ c.toNat < a.toNat := by omega
          simp [pyStrLtb, hac, hca]
          simp [pyStrLtb, hnba, hnab] at h1
          simp [pyStrLtb, hncb, hnbc] at h2
          exact ih bs cs h1 h2

theorem pyStrLtb_asymm (xs ys : List Char) (h : pyStrLtb xs ys = true) :
    pyStrLtb ys xs = false := by
  cases hv : pyStrLtb ys xs with
  | false => rfl
  | true =>
    have h2 := pyStrLtb_trans xs ys xs h hv
    rw [pyStrLtb_irrefl] at h2
    exact Bool.noConfusion h2

theorem pyStrLtb_trichotomy : ∀ (xs ys : List Char), pyStrLtb xs ys = true ∨
    pyStrLtb ys xs = true ∨ xs = ys := by
  intro xs
  induction xs with
  | nil =>
    intro ys
    cases ys with
    | nil => right; right; rfl
    | cons b bs => left; simp [pyStrLtb]
  | cons a as ih =>
    intro ys
    cases ys with
    | nil => right; left; simp [pyStrLtb]
    | cons b bs =>
      rcases Nat.lt_trichotomy a.toNat b.toNat with h | h | h
      · left; simp [pyStrLtb, h]
      · have hab : a = b := Char.eq_of_val_eq (UInt32.toNat.inj h)
        subst hab
        rcases ih bs with h1 | h1 | h1
        · left; simp [pyStrLtb, h1]
        · right; left; simp [pyStrLtb, h1]
        · right; right; rw [h1]
      · right; left; simp [pyStrLtb, h]

/-- Comparison used when sorting query fragments: Python string `<=` on
the part before the first `=`. -/
def keyLe (a b : String) : Prop := pyStrLeb (keyOf a) (keyOf b) = true

instance keyLeDecidable : DecidableRel keyLe :=
  fun a b => inferInstanceAs (Decidable (pyStrLeb (keyOf a) (keyOf b) = true))

instance keyLeTotal : IsTotal String keyLe :=
  ⟨fun a b => by
    by_cases h : pyStrLtb (keyOf b).data (keyOf a).data = true
    · right
      show (!(pyStrLtb (keyOf a).data (keyOf b).data)) = true
      rw [pyStrLtb_asymm _ _ h]
      rfl
    · left
      show (!(pyStrLtb (keyOf b).data (keyOf a).data)) = true
      rw [Bool.not_eq_true] at h
      rw [h]
      rfl⟩

instance keyLeTrans : IsTrans String keyLe :=
  ⟨fun a b c hab hbc => by
    have h1 : pyStrLtb (keyOf b).data (keyOf a).data = false := by
      have := hab
      unfold keyLe pyStrLeb at this
      simpa using this
    have h2 : pyStrLtb (keyOf c).data (keyOf b).data = false := by
      have := hbc
      unfold keyLe pyStrLeb at this
      simpa using this
    show (!(pyStrLtb (keyOf c).data (keyOf a).data)) = true
    cases hv : pyStrLtb (keyOf c).data (keyOf a).data with
    | false => rfl
    | true =>
      exfalso
      rcases pyStrLtb_trichotomy (keyOf c).data (keyOf b).data with h | h | h
      · rw [h] at h2; exact Bool.noConfusion h2
      · have := pyStrLtb_trans _ _ _ h hv
        rw [this] at h1
        exact Bool.noConfusion h1
      · rw [h] at hv
        rw [hv] at h1
        exact Bool.noConfusion h1⟩

/-- Strict variant of `keyLe`; used only in proofs. -/
def keyLt (a b : String) : Prop := pyStrLtb (keyOf a).data (keyOf b).data = true

instance keyLtAntisymm : IsAntisymm String keyLt :=
  ⟨fun a b h h2 => by
    have := pyStrLtb_asymm _ _ h
    rw [h2] at this
    exact Bool.noConfusion this⟩

theorem keyLt_of_keyLe_of_ne {a b : String} (h1 : keyLe a b)
    (h2 : keyOf a ≠ keyOf b) : keyLt a b := by
  rcases pyStrLtb_trichotomy (keyOf a).data (keyOf b).data with h | h | h
  · exact h
  · exfalso
    have h1b : (!(pyStrLtb (keyOf b).data (keyOf a).data)) = true := h1
    rw [h] at h1b
    exact Bool.noConfusion h1b
  · exact absurd (String.ext h) h2

/-! ### Bytes and crypto

Concrete implementations of the primitives the Python client takes from
`hashlib`, `hmac` and `base64`.  Bytes are natural numbers below 256 and
words are natural numbers below `2 ^ 32`. -/

def utf8Char (c : Char) : List Nat :=
  let n := c.toNat
  if n < 128 then [n]
  else if n < 2048 then [192 ||| (n >>> 6), 128 ||| (n % 64)]
  else if n < 65536 then
    [224 ||| (n >>> 12), 128 ||| ((n >>> 6) % 64), 128 ||| (n % 64)]
  else
    [240 ||| (n >>> 18), 128 ||| ((n >>> 12) % 64),
     128 ||| ((n >>> 6) % 64), 128 ||| (n % 64)]

/-- UTF-8 encoding of a string, i.e. Python `s.encode()`. -/
def utf8Bytes (s : String) : List Nat :=
  s.data.flatMap utf8Char

def pow32 : Nat := 4294967296

def add32 (a b : Nat) : Nat := (a + b) % pow32

/-- Right rotation of a 32-bit word. -/
def rotr (n x : Nat) : Nat :=
  ((x >>> n) ||| (x <<< (32 - n))) % pow32

/-- Big-endian byte decomposition of `n` into `k` bytes. -/
def beBytes (k n : Nat) : List Nat :=
  (List.range k).map (fun i => (n >>> (8 * (k - 1 - i))) % 256)

def sha256K : List Nat :=
  [1116352408, 1899447441, 3049323471, 3921009573, 961987163,
   1508970993, 2453635748, 2870763221, 3624381080, 310598401,
   607225278, 1426881987, 1925078388, 2162078206, 2614888103,
   3248222580, 3835390401, 4022224774, 264347078, 604807628,
   770255983, 1249150122, 1555081692, 1996064986, 2554220882,
   2821834349, 2952996808, 3210313671, 3336571891, 3584528711,
   113926993, 338241895, 666307205, 773529912, 1294757372,
   1396182291, 1695183700, 1986661051, 2177026350, 2456956037,
   2730485921, 2820302411, 3259730800, 3345764771, 3516065817,
   3600352804, 4094571909, 275423344, 430227734, 506948616,
   659060556, 883997877, 958139571, 1322822218, 1537002063,
   1747873779, 1955562222, 2024104815, 2227730452, 2361852424,
   2428436474, 2756734187, 3204031479, 3329325298]

def sha256Init : List Nat :=
  [1779033703, 3144134277, 1013904242, 2773480762, 1359893119,
   2600822924, 528734635, 1541459225]

/-- SHA-256 message padding: append `0x80`, zeros, and the 64-bit
big-endian bit length so the total length is a multiple of 64 bytes. -/
def sha256Pad (msg : List Nat) : List Nat :=
  let len := msg.length
  let zeros := (120 - ((len + 1) % 64)) % 64
  msg ++ [128] ++ List.replicate zeros 0 ++ beBytes 8 ((8 * len) % (2 ^ 64))

/-- Split the padded message into 64-byte blocks. -/
def sha256Blocks (padded : List Nat) : List (List Nat) :=
  (List.range (padded.length / 64)).map (fun i => ((padded.drop (64 * i)).take 64))

/-- Parse a 64-byte block into its initial 16 big-endian 32-bit words. -/
def blockWords (block : List Nat) : List Nat :=
  (List.range 16).map (fun i =>
    block.getD (4 * i) 0 * 16777216 + block.getD (4 * i + 1) 0 * 65536 +
    block.getD (4 * i + 2) 0 * 256 + block.getD (4 * i + 3) 0)

/-- One extension step of the SHA-256 message schedule. -/
def scheduleStep (w : List Nat) : List Nat :=
  let n := w.length
  let x15 := w.getD (n - 15) 0
  let x2 := w.getD (n - 2) 0
  let s0 := (rotr 7 x15) ^^^ (rotr 18 x15) ^^^ (x15 >>> 3)
  let s1 := (rotr 17 x2) ^^^ (rotr 19 x2) ^^^ (x2 >>> 10)
  w ++ [(w.getD (n - 16) 0 + s0 + w.getD (n - 7) 0 + s1) % pow32]

/-- The full 64-word message schedule of a block. -/
def messageSchedule (block : List Nat) : List Nat :=
  (List.range 48).foldl (fun w _ => scheduleStep w) (blockWords block)

/-- One SHA-256 compression round on the working state `[a,b,c,d,e,f,g,h]`. -/
def sha256Round (st : List Nat) (k : Nat) (w : Nat) : List Nat :=
  match st with
  | [a, b, c, d, e, f, g, h] =>
    let s1 := (rotr 6 e) ^^^ (rotr 11 e) ^^^ (rotr 25 e)
    let ch := (e &&& f) ^^^ ((e ^^^ 4294967295) &&& g)
    let t1 := (h + s1 + ch + k + w) % pow32
    let s0 := (rotr 2 a) ^^^ (rotr 13 a) ^^^ (rotr 22 a)
    let mj := (a &&& b) ^^^ (a &&& c) ^^^ (b &&& c)
    let t2 := (s0 + mj) % pow32
    [(t1 + t2) % pow32, a, b, c, (d + t1) % pow32, e, f, g]
  | other => other

/-- Compress one block into the running hash state. -/
def sha256Compress (h : List Nat) (block : List Nat) : List Nat :=
  let w := messageSchedule block
  let final := (List.range 64).foldl
    (fun st i => sha256Round st (sha256K.getD i 0) (w.getD i 0)) h
  List.zipWith add32 h final

/-- SHA-256 of a byte list, as a 32-byte list (Python
`hashlib.sha256(bytes).digest()`). -/
def sha256 (msg : List Nat) : List Nat :=
  let final := (sha256Blocks (sha256Pad msg)).foldl sha256Compress sha256Init
  final.flatMap (beBytes 4)

/-- HMAC-SHA256 with a 64-byte block size (Python
`hmac.new(key, msg, hashlib.sha256).digest()`). -/
def hmacSha256 (key msg : List Nat) : List Nat :=
  let k0 := if 64 < key.length then sha256 key else key
  let k := k0 ++ List.replicate (64 - k0.length) 0
  let ipad := k.map (fun b => b ^^^ 54)
  let opad := k.map (fun b => b ^^^ 92)
  sha256 (opad ++ sha256 (ipad ++ msg))

def base64Alphabet : List Char :=
  "ABCDEFGHIJKLMNOPQRSTUVWXYZabcdefghijklmnopqrstuvwxyz0123456789+/".data

def b64Char (i : Nat) : String :=
  String.mk [base64Alphabet.getD i 'A']

/-- Standard base64 with padding (Python `base64.b64encode(..).decode()`). -/
def base64Encode : List Nat → String
  | [] => ""
  | [a] => b64Char (a >>> 2) ++ b64Char ((a % 4) <<< 4) ++ "=="
  | [a, b] =>
    b64Char (a >>> 2) ++ b64Char (((a % 4) <<< 4) + (b >>> 4)) ++
    b64Char ((b % 16) <<< 2) ++ "="
  | a :: b :: c :: rest =>
    b64Char (a >>> 2) ++ b64Char (((a % 4) <<< 4) + (b >>> 4)) ++
    b64Char (((b % 16) <<< 2) + (c >>> 6)) ++ b64Char (c % 64) ++
    base64Encode rest

/-! ### The signing routine

Direct translation of `BitgetAPI.get_signature` (bitget_trader.py:78-95).
Python's `sorted(query_params, key=lambda x: x.split('=')[0])` is a stable
sort by the portion before the first `=`; `List.insertionSort keyLe` has
the same semantics. -/

def get_signature (secret : String) (timestamp : Nat) (method : String)
    (requestPath : String) (queryString : String) (body : String) : String :=
  let sortedQueryString :=
    if queryString ≠ "" then
      joinAmp (List.insertionSort keyLe (splitChar '&' queryString))
    else queryString
  let message :=
    if sortedQueryString ≠ "" then
      toString timestamp ++ pyUpper method ++ requestPath ++ "?" ++
        sortedQueryString ++ body
    else
      toString timestamp ++ pyUpper method ++ requestPath ++ body
  base64Encode (hmacSha256 (utf8Bytes secret) (utf8Bytes message))

/-- The canonical message as the specification words it (spec §4.1 / §3
`CanonicalMessage`): timestamp, upper-cased method, path, `'?' +` the
key-sorted query string when the query string is non-empty, then the body.
Stated independently of `get_signature` so the two can be compared. -/
def specSortedQuery (queryString : String) : String :=
  if queryString = "" then ""
  else joinAmp (List.insertionSort keyLe (splitChar '&' queryString))

def specCanonicalMessage (timestamp : Nat) (method : String)
    (requestPath : String) (queryString : String) (body : String) : String :=
  toString timestamp ++ pyUpper method ++ requestPath ++
    (if queryString ≠ "" then "?" ++ specSortedQuery queryString else "") ++ body

/-! ### JSON values

Python dicts/lists returned by the client, with object fields kept in
insertion order (as Python preserves it).  Exchange `code`/`msg` fields are
read as strings, matching the string-typed codes the exchange sends. -/

inductive Json where
  | str : String → Json
  | num : Int → Json
  | bool : Bool → Json
  | null : Json
  | arr : List Json → Json
  | obj : List (String × Json) → Json

def lookupField : List (String × Json) → String → Option Json
  | [], _ => none
  | (k2, v) :: rest, k => if k2 = k then some v else lookupField rest k

def jsonLookup (j : Json) (k : String) : Option Json :=
  match j with
  | Json.obj fields => lookupField fields k
  | _ => none

/-- Python `d.get(k, default)` restricted to string-valued fields. -/
def jsonGetStr (j : Json) (k : String) (dflt : String) : String :=
  match jsonLookup j k with
  | some (Json.str s) => s
  | _ => dflt

/-- Whether the object carries the given key at all. -/
def hasField (j : Json) (k : String) : Bool :=
  (jsonLookup j k).isSome

/-- Escape one character as Python `json.dumps` (with `ensure_ascii=True`)
does: printable ASCII passes through, the rest become escapes. -/
def jsonEscapeChar (c : Char) : String :=
  if c = '"' then "\\\"" else if c = '\\' then "\\\\"
  else if c.toNat < 32 ∨ 127 ≤ c.toNat then
    let hex4 := String.mk ((beBytes 2 (c.toNat % 65536)).flatMap (fun b =>
      ["0123456789abcdef".data.getD (b / 16) '0',
       "0123456789abcdef".data.getD (b % 16) '0']))
    "\\u" ++ hex4
  else String.mk [c]

def commaSep : List String → String
  | [] => ""
  | [s] => s
  | s :: rest => s ++ ", " ++ commaSep rest

/-- Serialization of a JSON string literal. -/
def jsonQuote (s : String) : String :=
  "\"" ++ String.join (s.data.map jsonEscapeChar) ++ "\""

mutual

/-- Python `json.dumps` with its default separators `(', ', ': ')`. -/
def jsonDumps : Json → String
  | Json.str s => jsonQuote s
  | Json.num n => toString n
  | Json.bool b => if b then "true" else "false"
  | Json.null => "null"
  | Json.arr xs => "[" ++ commaSep (jsonDumpsList xs) ++ "]"
  | Json.obj fields => "\x7b" ++ commaSep (jsonDumpsFields fields) ++ "\x7d"

def jsonDumpsList : List Json → List String
  | [] => []
  | x :: xs => jsonDumps x :: jsonDumpsList xs

def jsonDumpsFields : List (String × Json) → List String
  | [] => []
  | (k, v) :: rest => (jsonQuote k ++ ": " ++ jsonDumps v) :: jsonDumpsFields rest

end

/-! ### The request loop

Embedding of `BitgetAPI.request` (bitget_trader.py:97-215).  The network,
the jitter of `random.uniform(0, 1)`, the wall clock and the value the
server-time endpoint would report are oracles in an `Env`.  The loop runs
`while retries <= max_retries`; since every iteration either returns or
increments `retries`, it is embedded by recursion on the fuel
`max_retries + 1 - retries`.  The `ACCESS-TIMESTAMP` and `ACCESS-SIGN`
headers are computed once before the loop (bitget_trader.py:117-135) and
therefore appear as a fixed per-call `Attempt` record; the constant headers
(`ACCESS-KEY`, `ACCESS-PASSPHRASE`, `Content-Type`, `locale`) carry no
per-attempt information and are not recorded.  `get_server_time`
(bitget_trader.py:217-224) is abstracted as the oracle `serverTimeMs`; its
invocations are counted in `serverTimeCalls`. -/

/-- One oracle answer of the mocked network: either an HTTP response with
its status code, optionally-parseable JSON body and raw text, or a raised
exception (`requestException = true` for
`requests.exceptions.RequestException`, `false` for any other
`Exception`). -/
inductive TransportResp where
  | http : Nat → Option Json → String → TransportResp
  | exn : Bool → String → TransportResp

structure Env where
  transport : Nat → TransportResp
  jitter : Nat → ℚ
  localTimeMs : Nat
  serverTimeMs : Nat

structure ApiConfig where
  apiKey : String
  secret : String
  passphrase : String

/-- The per-attempt authentication headers actually placed on the wire. -/
structure Attempt where
  timestampHeader : String
  signHeader : String

structure LoopState where
  retries : Nat
  attemptIdx : Nat
  timestamp : Nat
  attempts : List Attempt
  sleeps : List ℚ
  serverTimeCalls : Nat

structure RunResult where
  attempts : List Attempt
  sleeps : List ℚ
  serverTimeCalls : Nat
  result : Json

def mkResult (st : LoopState) (result : Json) : RunResult :=
  ⟨st.attempts, st.sleeps, st.serverTimeCalls, result⟩

/-- The base of the exponential backoff: `min(30, 2 ** retries)`
(bitget_trader.py:186,193,206,212). -/
def backoffBase (retries : Nat) : Nat := min 30 (2 ^ retries)

/-- The duration actually slept on a backoff retry:
`min(30, 2 ** retries) + random.uniform(0, 1)`. -/
def backoffDelay (env : Env) (retries : Nat) : ℚ :=
  (backoffBase retries : ℚ) + env.jitter retries

/-- Exchange codes classified as timestamp drift
(bitget_trader.py:161). -/
def driftCodes : List String := ["40004", "40005", "40008"]

/-- `response_data`: the parsed body, or `{"error": response.text}` when
the body fails to parse (bitget_trader.py:152-156). -/
def respDataOf (jsonBody : Option Json) (text : String) : Json :=
  jsonBody.getD (Json.obj [("error", Json.str text)])

/-- Return value for HTTP 401/403 (bitget_trader.py:178-183). -/
def authFailValue (status : Nat) (respData : Json) : Json :=
  Json.obj [("status", Json.str "FAILED"), ("status_code", Json.num status),
    ("error", Json.str (if status = 401 then "Authentication error" else "Access denied")),
    ("response_data", respData)]

/-- Return value for HTTP 400 with a parameter-validation code
(bitget_trader.py:169-175). -/
def invalidParamValue (status : Nat) (errorCode errorMsg : String)
    (respData : Json) : Json :=
  Json.obj [("status", Json.str "FAILED"), ("status_code", Json.num status),
    ("error_code", Json.str errorCode), ("error_msg", Json.str errorMsg),
    ("response_data", respData)]

/-- Return value of the final `# Case : Other Errors` branch
(bitget_trader.py:198-202). -/
def otherErrorValue (status : Nat) (respData : Json) : Json :=
  Json.obj [("status", Json.str "FAILED"), ("status_code", Json.num status),
    ("response_data", respData)]

/-- Return value when an exception exhausts the retry budget
(bitget_trader.py:205,211). -/
def exnValue (requestException : Bool) (msg : String) : Json :=
  Json.obj [("status", Json.str "FAILED"),
    ("error", Json.str ((if requestException then "Request error: "
      else "Unexpected error: ") ++ msg))]

/-- Return value after the `while` loop exits (bitget_trader.py:215). -/
def maxRetriesExceededValue : Json :=
  Json.obj [("status", Json.str "FAILED"), ("error", Json.str "Max retries exceeded")]

/-- The body of `while retries <= max_retries` (bitget_trader.py:139-214),
one constructor clause per control path.  The fuel argument equals
`maxRetries + 1 - retries` throughout any run started by `request`. -/
def requestLoop (env : Env) (att : Attempt) (maxRetries : Nat) :
    Nat → LoopState → RunResult
  | 0, st => mkResult st maxRetriesExceededValue
  | fuel + 1, st =>
    let st1 : LoopState :=
      { st with attempts := st.attempts ++ [att], attemptIdx := st.attemptIdx + 1 }
    match env.transport st.attemptIdx with
    | TransportResp.http status jsonBody text =>
      if status = 200 then
        match jsonBody with
        | some j => mkResult st1 j
        | none =>
          -- `response.json()` raising on a 200 body lands in the generic
          -- `except Exception` branch; the exact Python message is not
          -- modelled (no claim depends on it).
          if maxRetries ≤ st.retries then
            mkResult st1 (exnValue false text)
          else
            requestLoop env att maxRetries fuel
              { st1 with sleeps := st1.sleeps ++ [backoffDelay env st.retries],
                         retries := st.retries + 1 }
      else
        let respData := respDataOf jsonBody text
        if status = 400 then
          let errorCode := jsonGetStr respData "code" ""
          let errorMsg := jsonGetStr respData "msg" "Unknown error"
          if errorCode ∈ driftCodes ∧ st.retries < maxRetries then
            requestLoop env att maxRetries fuel
              { st1 with sleeps := st1.sleeps ++ [(1 : ℚ)],
                         timestamp := env.serverTimeMs,
                         serverTimeCalls := st1.serverTimeCalls + 1,
                         retries := st.retries + 1 }
          else if pyStartswith errorCode "4001" = true ∨ pyStartswith errorCode "4002" = true then
            mkResult st1 (invalidParamValue status errorCode errorMsg respData)
          else
            mkResult st1 (otherErrorValue status respData)
        else if status = 401 ∨ status = 403 then
          mkResult st1 (authFailValue status respData)
        else if status = 429 then
          requestLoop env att maxRetries fuel
            { st1 with sleeps := st1.sleeps ++ [backoffDelay env st.retries],
                       retries := st.retries + 1 }
        else if 500 ≤ status then
          if st.retries < maxRetries then
            requestLoop env att maxRetries fuel
              { st1 with sleeps := st1.sleeps ++ [backoffDelay env st.retries],
                         retries := st.retries + 1 }
          else
            mkResult st1 (otherErrorValue status respData)
        else
          mkResult st1 (otherErrorValue status respData)
    | TransportResp.exn requestException msg =>
      if maxRetries ≤ st.retries then
        mkResult st1 (exnValue requestException msg)
      else
        requestLoop env att maxRetries fuel
          { st1 with sleeps := st1.sleeps ++ [backoffDelay env st.retries],
                     retries := st.retries + 1 }

/-- Tuple-lexicographic comparison used by `dict(sorted(params.items()))`
(bitget_trader.py:123); with the unique keys of a Python dict it reduces to
comparison on keys. -/
def pairLe (a b : String × String) : Prop :=
  pyStrLtb a.1.data b.1.data = true ∨ (a.1 = b.1 ∧ pyStrLeb a.2 b.2 = true)

instance pairLeDecidable : DecidableRel pairLe :=
  fun a b => inferInstanceAs
    (Decidable (pyStrLtb a.1.data b.1.data = true ∨ (a.1 = b.1 ∧ pyStrLeb a.2 b.2 = true)))

def sortParams (params : List (String × String)) : List (String × String) :=
  List.insertionSort pairLe params

/-- `BitgetAPI.request` (bitget_trader.py:97-215).  The URL itself carries
no information beyond `endpoint`/`params` and is not recorded; the unused
`recv_window` parameter is dropped.  Note that the headers — including the
signature — are assembled once, before the retry loop. -/
def request (cfg : ApiConfig) (env : Env) (method : String) (endpoint : String)
    (params : List (String × String)) (body : Option Json)
    (maxRetries : Nat) : RunResult :=
  let timestamp := env.localTimeMs
  let queryString :=
    if params ≠ [] then
      joinAmp ((sortParams params).map (fun kv => kv.1 ++ "=" ++ kv.2))
    else ""
  let bodyStr :=
    match body with
    | none => ""
    | some (Json.obj []) => ""   -- an empty dict is falsy in `if body`
    | some b => jsonDumps b
  let signature := get_signature cfg.secret timestamp (pyUpper method)
    ("/" ++ lstripChar '/' endpoint)
    (if pyLower method = "get" then queryString else "")
    (if pyLower method = "get" then "" else bodyStr)
  requestLoop env ⟨toString timestamp, signature⟩ maxRetries (maxRetries + 1)
    ⟨0, 0, timestamp, [], [], 0⟩

/-! ### Domain methods with validation (bitget_trader.py:240-334)

`post_order` and `delete_order` raise `ValueError` before any signing or
network traffic when domain validation fails; raising is modelled by
`Except.error` carrying the exception message. -/

/-- `BitgetAPI.post_order` (bitget_trader.py:240-304). -/
def post_order (cfg : ApiConfig) (env : Env) (symbol : String) (side : String)
    (quantity : String) (type_ : String) (price : Option String)
    (reduceOnly : Bool) (timeInForce : String) (marginMode : String)
    (marginCoin : String) (tradeSide : Option String) (clientOid : Option String)
    (takeProfit : Option String) (stopLoss : Option String) :
    Except String RunResult := do
  let endpoint := "api/v2/mix/order/place-order"
  let orderData : List (String × Json) :=
    [("symbol", Json.str (pyLower symbol)), ("productType", Json.str "USDT-FUTURES"),
     ("marginMode", Json.str marginMode), ("marginCoin", Json.str (pyUpper marginCoin)),
     ("size", Json.str quantity), ("side", Json.str (pyLower side)),
     ("orderType", Json.str (pyLower type_))]
  let orderData := orderData ++
    (match tradeSide with
     | some ts => if ts = "" then [] else [("tradeSide", Json.str ts)]
     | none => [])
  let orderData := orderData ++ (if reduceOnly then [("reduceOnly", Json.str "YES")] else [])
  let orderData ← (
    if pyLower type_ = "limit" then
      match price with
      | none => Except.error "Price must be provided for limit orders"
      | some p =>
        if p = "" then Except.error "Price must be provided for limit orders"
        else Except.ok (orderData ++ [("price", Json.str p), ("force", Json.str timeInForce)])
    else Except.ok orderData)
  let orderData := orderData ++
    (match clientOid with
     | some oid => if oid = "" then [] else [("clientOid", Json.str oid)]
     | none => [])
  let orderData := orderData ++
    (match takeProfit with
     | some tp => if tp = "" then [] else [("presetStopSurplusPrice", Json.str tp)]
     | none => [])
  let orderData := orderData ++
    (match stopLoss with
     | some sl => if sl = "" then [] else [("presetStopLossPrice", Json.str sl)]
     | none => [])
  Except.ok (request cfg env "post" endpoint [] (some (Json.obj orderData)) 3)

/-- `BitgetAPI.delete_order` (bitget_trader.py:306-334). -/
def delete_order (cfg : ApiConfig) (env : Env) (symbol : String)
    (orderId : Option String) (clientOid : Option String) (marginCoin : String) :
    Except String RunResult := do
  let orderIdFalsy := orderId = none ∨ orderId = some ""
  let clientOidFalsy := clientOid = none ∨ clientOid = some ""
  if orderIdFalsy ∧ clientOidFalsy then
    Except.error "Either order_id or client_oid must be provided"
  else
    let body : List (String × Json) :=
      [("symbol", Json.str (pyLower symbol)), ("productType", Json.str "USDT-FUTURES"),
       ("marginCoin", Json.str (pyUpper marginCoin))]
    let body := body ++
      (match orderId with
       | some oid => if oid = "" then [] else [("orderId", Json.str oid)]
       | none => [])
    let body := body ++
      (match clientOid with
       | some oid => if oid = "" then [] else [("clientOid", Json.str oid)]
       | none => [])
    Except.ok (request cfg env "post" "api/v2/mix/order/cancel-order" []
      (some (Json.obj body)) 3)

/-- The number of HTTP attempts a domain-method outcome performed: zero
when validation raised before reaching the transport. -/
def transportCalls : Except String RunResult → Nat
  | Except.error _ => 0
  | Except.ok r => r.attempts.length

/-! ### Helper lemmas -/

theorem splitCharAux_ne_nil (c : Char) (l : List Char) : splitCharAux c l ≠ [] := by
  cases l with
  | nil => simp [splitCharAux]
  | cons a as =>
    simp only [splitCharAux]
    cases h : splitCharAux c as with
    | nil => simp
    | cons p ps =>
      by_cases hac : a = c <;> simp [hac]

theorem splitCharAux_eq_singleton_nil (c : Char) (l : List Char)
    (h : splitCharAux c l = [[]]) : l = [] := by
  cases l with
  | nil => rfl
  | cons a as =>
    exfalso
    simp only [splitCharAux] at h
    cases hs : splitCharAux c as with
    | nil => exact splitCharAux_ne_nil c as hs
    | cons p ps =>
      rw [hs] at h
      by_cases hac : a = c <;> simp [hac] at h

theorem splitChar_eq_singleton_empty (c : Char) (s : String)
    (h : splitChar c s = [""]) : s = "" := by
  have haux : splitCharAux c s.data = [[]] := by
    cases haux : splitCharAux c s.data with
    | nil => exact absurd haux (splitCharAux_ne_nil c s.data)
    | cons p ps =>
      simp only [splitChar, haux, List.map_cons, List.cons.injEq] at h
      obtain ⟨hp, hps⟩ := h
      have hp0 : p = [] := by
        have h2 : (String.mk p).data = ("" : String).data := by rw [hp]
        simpa using h2
      have hps0 : ps = [] := List.map_eq_nil_iff.mp hps
      rw [hp0, hps0]
  exact String.ext (splitCharAux_eq_singleton_nil c s.data haux)

theorem splitChar_ne_nil (c : Char) (s : String) : splitChar c s ≠ [] := by
  simp only [splitChar]
  intro h
  exact splitCharAux_ne_nil c s.data (List.map_eq_nil_iff.mp h)

theorem joinAmp_ne_empty (l : List String) (hnil : l ≠ []) (hone : l ≠ [""]) :
    joinAmp l ≠ "" := by
  match l with
  | [] => exact absurd rfl hnil
  | [s] =>
    intro h
    exact hone (by simpa [joinAmp] using congrArg (fun x => [x]) h)
  | s :: t :: rest =>
    intro h
    have hj : joinAmp (s :: t :: rest) = s ++ "&" ++ joinAmp (t :: rest) := rfl
    rw [hj] at h
    have hlen : (s ++ "&" ++ joinAmp (t :: rest)).length = 0 := by
      rw [h, String.length_empty]
    rw [String.length_append, String.length_append] at hlen
    have h1 : ("&" : String).length = 1 := rfl
    omega

/-- The stable sort of a non-empty query string joins back to a non-empty
string. -/
theorem sortedJoin_ne_empty (q : String) (hq : q ≠ "") :
    joinAmp (List.insertionSort keyLe (splitChar '&' q)) ≠ "" := by
  apply joinAmp_ne_empty
  · intro h
    have := List.length_insertionSort keyLe (splitChar '&' q)
    rw [h] at this
    exact splitChar_ne_nil '&' q (List.length_eq_zero.mp this.symm)
  · intro h
    have hperm : List.Perm (splitChar '&' q) [""] :=
      ((List.perm_insertionSort keyLe (splitChar '&' q)).symm.trans (h ▸ List.Perm.refl _))
    exact hq (splitChar_eq_singleton_empty '&' q (List.perm_singleton.mp hperm))

/-- Two permuted fragment lists with pairwise-distinct keys have the same
stable sort. -/
theorem insertionSort_eq_of_perm_of_nodup_keys (l₁ l₂ : List String)
    (hperm : List.Perm l₁ l₂) (hnodup : (l₁.map keyOf).Nodup) :
    List.insertionSort keyLe l₁ = List.insertionSort keyLe l₂ := by
  have hsorted₁ := List.sorted_insertionSort keyLe l₁
  have hsorted₂ := List.sorted_insertionSort keyLe l₂
  have hperm₁ : List.Perm (List.insertionSort keyLe l₁) l₁ := List.perm_insertionSort keyLe l₁
  have hperm₂ : List.Perm (List.insertionSort keyLe l₂) l₂ := List.perm_insertionSort keyLe l₂
  have hkeys : l₁.Pairwise (fun a b => keyOf a ≠ keyOf b) := List.pairwise_map.mp hnodup
  have hsymm : ∀ {x y : String}, keyOf x ≠ keyOf y → keyOf y ≠ keyOf x :=
    fun h => Ne.symm h
  have hkeys₁ : (List.insertionSort keyLe l₁).Pairwise (fun a b => keyOf a ≠ keyOf b) :=
    (hperm₁.pairwise_iff hsymm).mpr hkeys
  have hkeys₂ : (List.insertionSort keyLe l₂).Pairwise (fun a b => keyOf a ≠ keyOf b) :=
    ((hperm₂.trans hperm.symm).pairwise_iff hsymm).mpr hkeys
  have hlt₁ : (List.insertionSort keyLe l₁).Sorted keyLt :=
    (hsorted₁.and hkeys₁).imp (fun h => keyLt_of_keyLe_of_ne h.1 h.2)
  have hlt₂ : (List.insertionSort keyLe l₂).Sorted keyLt :=
    (hsorted₂.and hkeys₂).imp (fun h => keyLt_of_keyLe_of_ne h.1 h.2)
  exact List.eq_of_perm_of_sorted
    (hperm₁.trans (hperm.trans hperm₂.symm)) hlt₁ hlt₂

/-! ### C3: the signature is base64(HMAC-SHA256) of the canonical message -/

/-- C3.  For all inputs, `get_signature` returns base64 of the
HMAC-SHA256 digest, keyed by the secret, of the canonical message —
timestamp, upper-cased method, path, `'?' +` key-sorted query when the
query string is non-empty, then the body — and it is a pure function, so
two calls with identical inputs yield identical signatures. -/
theorem get_signature_canonical (secret : String) (ts : Nat) (m p q b : String) :
    get_signature secret ts m p q b =
      base64Encode (hmacSha256 (utf8Bytes secret)
        (utf8Bytes (specCanonicalMessage ts m p q b))) ∧
    get_signature secret ts m p q b = get_signature secret ts m p q b := by
  refine ⟨?_, rfl⟩
  by_cases hq : q = ""
  · subst hq
    have h1 : specCanonicalMessage ts m p "" b = toString ts ++ pyUpper m ++ p ++ b := by
      simp [specCanonicalMessage]
    rw [h1]
    rfl
  · have hne := sortedJoin_ne_empty q hq
    have h1 : specCanonicalMessage ts m p q b =
        toString ts ++ pyUpper m ++ p ++
          ("?" ++ joinAmp (List.insertionSort keyLe (splitChar '&' q))) ++ b := by
      simp [specCanonicalMessage, specSortedQuery, hq]
    have h2 : get_signature secret ts m p q b =
        base64Encode (hmacSha256 (utf8Bytes secret) (utf8Bytes
          (toString ts ++ pyUpper m ++ p ++ "?" ++
            joinAmp (List.insertionSort keyLe (splitChar '&' q)) ++ b))) := by
      simp only [get_signature, ne_eq, hq, not_false_eq_true, ite_true, hne]
    rw [h1, h2]
    simp [String.append_assoc]

/-! ### C4: order-invariance of the query string under signing -/

set_option maxRecDepth 40000 in
set_option maxHeartbeats 1000000 in
/-- C4 (counterexample).  The claim quantifies over every pair of query
strings carrying the same key=value pairs in different orders; with a
duplicated key the stable sort preserves the caller's order, so
`"a=1&a=2"` and `"a=2&a=1"` — permutations of the same pairs — sign
differently. -/
theorem duplicate_key_query_signature_differs :
    List.Perm (splitChar '&' "a=1&a=2") (splitChar '&' "a=2&a=1") ∧
    get_signature "k" 1 "GET" "/p" "a=1&a=2" "" ≠
      get_signature "k" 1 "GET" "/p" "a=2&a=1" "" := by
  constructor
  · decide
  · decide

/-- C4 (amended).  For every secret, timestamp, method, path and body, and
every pair of query strings whose `&`-fragments are permutations of each
other with pairwise-distinct keys, the signatures agree, because the
fragments are sorted by key before the message is built. -/
theorem query_order_invariance_of_sign (secret : String) (ts : Nat)
    (m p b : String) (q₁ q₂ : String)
    (hperm : List.Perm (splitChar '&' q₁) (splitChar '&' q₂))
    (hnodup : ((splitChar '&' q₁).map keyOf).Nodup) :
    get_signature secret ts m p q₁ b = get_signature secret ts m p q₂ b := by
  by_cases hq₁ : q₁ = ""
  · subst hq₁
    have h0 : splitChar '&' "" = [""] := rfl
    rw [h0] at hperm
    have hq₂ : q₂ = "" :=
      splitChar_eq_singleton_empty '&' q₂ (List.perm_singleton.mp hperm.symm)
    rw [hq₂]
  · have hq₂ : q₂ ≠ "" := by
      intro h
      subst h
      exact hq₁ (splitChar_eq_singleton_empty '&' q₁ (List.perm_singleton.mp hperm))
    have hsort := insertionSort_eq_of_perm_of_nodup_keys _ _ hperm hnodup
    simp only [get_signature, if_neg, hq₁, hq₂, ne_eq, not_false_iff, ite_true, hsort]

/-- Witness for C4 (amended) at the specification's own example pair
`"b=2&a=1"` / `"a=1&b=2"`. -/
theorem query_order_invariance_witness :
    get_signature "secret" 1700000000000 "GET" "/api/v2/mix/account/accounts"
        "b=2&a=1" "" =
      get_signature "secret" 1700000000000 "GET" "/api/v2/mix/account/accounts"
        "a=1&b=2" "" :=
  query_order_invariance_of_sign "secret" 1700000000000 "GET"
    "/api/v2/mix/account/accounts" "" "b=2&a=1" "a=1&b=2" (by decide) (by decide)

/-! ### Concrete fixtures for the retry-loop claims -/

def cfgA : ApiConfig := ⟨"key", "secret", "passphrase"⟩

def halfJitter : Nat → ℚ := fun _ => (1 : ℚ) / 2

/-- A mock environment: given transport answers, local clock 1000 ms and
server clock 9999 ms, jitter 1/2 on every draw. -/
def mkEnv (tr : Nat → TransportResp) : Env := ⟨tr, halfJitter, 1000, 9999⟩

def respDrift : Json :=
  Json.obj [("code", Json.str "40008"), ("msg", Json.str "Request timestamp expired")]

def respOk : Json :=
  Json.obj [("code", Json.str "00000"), ("msg", Json.str "success"),
    ("data", Json.obj [("serverTime", Json.str "1700000000000")])]

/-- First attempt: drift-coded HTTP 400; afterwards HTTP 200. -/
def envDrift200 : Env := mkEnv (fun n =>
  if n = 0 then TransportResp.http 400 (some respDrift) "drift"
  else TransportResp.http 200 (some respOk) "ok")

/-! ### C1: headers across attempts -/

/-- C1.  The claim says every attempt carries a signature computed from a
freshly obtained timestamp and that a signature is never reused on a later
attempt.  The code computes both headers once, before the retry loop
(bitget_trader.py:117-135): in a drift-retry run the two attempts carry
the identical `Attempt` record, the `ACCESS-TIMESTAMP` header stays at the
stale local time (1000) on both attempts, and the server time fetched by
the resynchronization (9999) is written to a variable that is never read
(bitget_trader.py:164). -/
theorem signature_cached_across_attempts :
    (request cfgA envDrift200 "get" "api/v2/mix/account/accounts" [] none 3).attempts.length = 2 ∧
    (request cfgA envDrift200 "get" "api/v2/mix/account/accounts" [] none 3).attempts[0]? =
      (request cfgA envDrift200 "get" "api/v2/mix/account/accounts" [] none 3).attempts[1]? ∧
    (request cfgA envDrift200 "get" "api/v2/mix/account/accounts" [] none 3).attempts.map
      Attempt.timestampHeader = ["1000", "1000"] ∧
    (request cfgA envDrift200 "get" "api/v2/mix/account/accounts" [] none 3).serverTimeCalls = 1 ∧
    envDrift200.serverTimeMs = 9999 :=
  ⟨rfl, rfl, rfl, rfl, rfl⟩

/-! ### C2: exhaustion under persistent HTTP 500 -/

def resp500 : Json :=
  Json.obj [("code", Json.str "40200"), ("msg", Json.str "Server upgrade, please try again later")]

def env500 : Env := mkEnv (fun _ => TransportResp.http 500 (some resp500) "ise")

/-- C2 (counterexample).  Against an always-500 transport with
`max_retries = 3` the call does perform exactly 4 attempts, but it does
not terminate with the dedicated max-retries-exceeded value
(bitget_trader.py:215): the server-error branch checks the budget first
and falls through to the generic error return (bitget_trader.py:198-202),
whose value carries a `status_code`. -/
theorem server_error_exhaustion_not_max_retries_value :
    (request cfgA env500 "get" "api/v2/mix/account/accounts" [] none 3).attempts.length = 4 ∧
    (request cfgA env500 "get" "api/v2/mix/account/accounts" [] none 3).result ≠
      maxRetriesExceededValue := by
  refine ⟨rfl, ?_⟩
  intro h
  have h1 : hasField
      (request cfgA env500 "get" "api/v2/mix/account/accounts" [] none 3).result
      "status_code" = true := rfl
  rw [h] at h1
  exact absurd h1 (by decide)

/-- C2 (amended).  For every call with `max_retries = 3` against a
transport answering HTTP 500 on every attempt, exactly 4 attempts are
performed (never a 5th), three backoff sleeps occur, and the call
terminates with the generic structured failure
`{status: "FAILED", status_code: 500, response_data: <last body>}` rather
than the dedicated max-retries-exceeded value. -/
theorem server_error_exhaustion_behavior (cfg : ApiConfig) (env : Env)
    (m ep : String) (ps : List (String × String)) (b : Option Json)
    (jbs : Nat → Option Json) (txts : Nat → String)
    (htr : ∀ n, env.transport n = TransportResp.http 500 (jbs n) (txts n)) :
    (request cfg env m ep ps b 3).attempts.length = 4 ∧
    (request cfg env m ep ps b 3).sleeps =
      [backoffDelay env 0, backoffDelay env 1, backoffDelay env 2] ∧
    (request cfg env m ep ps b 3).result =
      otherErrorValue 500 (respDataOf (jbs 3) (txts 3)) := by
  refine ⟨?_, ?_, ?_⟩ <;>
    simp [request, requestLoop, htr, mkResult, respDataOf]

/-- Witness for C2 (amended) at the concrete always-500 environment. -/
theorem server_error_exhaustion_behavior_witness :
    (request cfgA env500 "get" "api/v2/mix/account/accounts" [] none 3).attempts.length = 4 ∧
    (request cfgA env500 "get" "api/v2/mix/account/accounts" [] none 3).sleeps =
      [backoffDelay env500 0, backoffDelay env500 1, backoffDelay env500 2] ∧
    (request cfgA env500 "get" "api/v2/mix/account/accounts" [] none 3).result =
      otherErrorValue 500 (respDataOf (some resp500) "ise") :=
  server_error_exhaustion_behavior cfgA env500 "get" "api/v2/mix/account/accounts"
    [] none (fun _ => some resp500) (fun _ => "ise") (fun _ => rfl)

/-! ### C5: terminal fast-fail on 401/403 -/

/-- C5.  A first attempt answered with HTTP 401 (or 403) terminates the
call immediately: exactly one attempt, no sleep, no clock
resynchronization, and the structured authentication-failure
(resp. access-denied) value (bitget_trader.py:176-183). -/
theorem auth_failure_fast_fail (cfg : ApiConfig) (env : Env) (m ep : String)
    (ps : List (String × String)) (b : Option Json) (mr status : Nat)
    (jb : Option Json) (t : String)
    (hstatus : status = 401 ∨ status = 403)
    (htr : env.transport 0 = TransportResp.http status jb t) :
    (request cfg env m ep ps b mr).attempts.length = 1 ∧
    (request cfg env m ep ps b mr).sleeps = [] ∧
    (request cfg env m ep ps b mr).serverTimeCalls = 0 ∧
    (request cfg env m ep ps b mr).result = authFailValue status (respDataOf jb t) := by
  rcases hstatus with h | h <;> subst h <;>
    refine ⟨?_, ?_, ?_, ?_⟩ <;>
      simp [request, requestLoop, htr, mkResult, authFailValue, respDataOf]

def resp401 : Json :=
  Json.obj [("code", Json.str "40009"), ("msg", Json.str "sign signature error")]

def env401 : Env := mkEnv (fun _ => TransportResp.http 401 (some resp401) "unauthorized")

/-- Witness for C5 at a concrete 401-answering environment. -/
theorem auth_failure_fast_fail_witness :
    (request cfgA env401 "get" "api/v2/mix/account/accounts" [] none 3).attempts.length = 1 ∧
    (request cfgA env401 "get" "api/v2/mix/account/accounts" [] none 3).sleeps = [] ∧
    (request cfgA env401 "get" "api/v2/mix/account/accounts" [] none 3).serverTimeCalls = 0 ∧
    (request cfgA env401 "get" "api/v2/mix/account/accounts" [] none 3).result =
      authFailValue 401 (respDataOf (some resp401) "unauthorized") :=
  auth_failure_fast_fail cfgA env401 "get" "api/v2/mix/account/accounts" [] none 3
    401 (some resp401) "unauthorized" (Or.inl rfl) rfl

/-! ### C6: backoff schedule -/

def env429 : Env := mkEnv (fun _ => TransportResp.http 429 none "busy")

/-- C6.  The backoff used whenever a rate-limit, server-error or transport
failure is retried is `min(30, 2^n) + jitter(n)`: the base at attempts
0,1,2,3 is 1,2,4,8 seconds, the base never exceeds 30 seconds (attempt 6
gives exactly 30), the slept duration lies in `[base, base+1)` whenever
the jitter lies in `[0,1)`, and the sleep the loop records on a retried
rate-limited first attempt is exactly `backoffDelay env 0`. -/
theorem backoff_schedule :
    (∀ n, backoffBase n ≤ 30) ∧
    backoffBase 0 = 1 ∧ backoffBase 1 = 2 ∧ backoffBase 2 = 4 ∧
    backoffBase 3 = 8 ∧ backoffBase 6 = 30 ∧
    (∀ env n, backoffDelay env n = (backoffBase n : ℚ) + env.jitter n) ∧
    (∀ (env : Env) (n : Nat), 0 ≤ env.jitter n → env.jitter n < 1 →
      (backoffBase n : ℚ) ≤ backoffDelay env n ∧
        backoffDelay env n < (backoffBase n : ℚ) + 1) ∧
    (∀ (cfg : ApiConfig) (env : Env) (m ep : String)
      (ps : List (String × String)) (b : Option Json) (jb : Option Json) (t : String),
      env.transport 0 = TransportResp.http 429 jb t →
      (request cfg env m ep ps b 0).sleeps = [backoffDelay env 0]) := by
  refine ⟨fun n => Nat.min_le_left _ _, rfl, rfl, rfl, rfl, rfl, fun env n => rfl,
    ?_, ?_⟩
  · intro env n h0 h1
    constructor
    · simp [backoffDelay]
      linarith
    · simp [backoffDelay]
      linarith
  · intro cfg env m ep ps b jb t htr
    simp [request, requestLoop, htr, mkResult]

/-- Witness for C6: the jitter bound and the recorded first sleep, at the
concrete always-429 environment with jitter 1/2. -/
theorem backoff_schedule_witness :
    ((1 : ℚ) ≤ backoffDelay env429 0 ∧ backoffDelay env429 0 < 2) ∧
    (request cfgA env429 "get" "api/v2/mix/account/accounts" [] none 0).sleeps =
      [backoffDelay env429 0] := by
  constructor
  · have h := backoff_schedule.2.2.2.2.2.2.2.1 env429 0
      (by norm_num [env429, mkEnv, halfJitter])
      (by norm_num [env429, mkEnv, halfJitter])
    have hb : backoffBase 0 = 1 := rfl
    rw [hb] at h
    push_cast at h
    exact ⟨by linarith [h.1], by linarith [h.2]⟩
  · exact backoff_schedule.2.2.2.2.2.2.2.2 cfgA env429 "get"
      "api/v2/mix/account/accounts" [] none none "busy" rfl

/-! ### C7: domain validation short-circuits before any network traffic -/

/-- C7.  A limit order without a price and a cancel request with neither
an order id nor a client id raise `ValueError` (modelled as
`Except.error`) before any signature is computed and before the transport
is touched: the outcome is independent of credentials and environment and
records zero transport calls (bitget_trader.py:290-295,321-322). -/
theorem validation_short_circuit (cfg : ApiConfig) (env : Env)
    (symbol side quantity timeInForce marginMode marginCoin : String)
    (price : Option String) (reduceOnly : Bool)
    (tradeSide clientOid takeProfit stopLoss : Option String)
    (symbol2 marginCoin2 : String) (orderId clientOid2 : Option String)
    (hprice : price = none ∨ price = some "")
    (hoid : orderId = none ∨ orderId = some "")
    (hcoid : clientOid2 = none ∨ clientOid2 = some "") :
    (post_order cfg env symbol side quantity "LIMIT" price reduceOnly timeInForce
        marginMode marginCoin tradeSide clientOid takeProfit stopLoss =
      Except.error "Price must be provided for limit orders" ∧
    transportCalls (post_order cfg env symbol side quantity "LIMIT" price reduceOnly
        timeInForce marginMode marginCoin tradeSide clientOid takeProfit stopLoss) = 0) ∧
    (delete_order cfg env symbol2 orderId clientOid2 marginCoin2 =
      Except.error "Either order_id or client_oid must be provided" ∧
    transportCalls (delete_order cfg env symbol2 orderId clientOid2 marginCoin2) = 0) := by
  constructor
  · rcases hprice with h | h <;> subst h <;> exact ⟨rfl, rfl⟩
  · rcases hoid with h | h <;> rcases hcoid with h2 | h2 <;> subst h <;> subst h2 <;>
      exact ⟨rfl, rfl⟩

/-- Witness for C7: concrete limit order with no price and cancel with no
identifiers, at a concrete environment. -/
theorem validation_short_circuit_witness :
    (post_order cfgA env429 "BTCUSDT" "BUY" "0.01" "LIMIT" none false "gtc"
        "isolated" "USDT" none none none none =
      Except.error "Price must be provided for limit orders" ∧
    transportCalls (post_order cfgA env429 "BTCUSDT" "BUY" "0.01" "LIMIT" none false
        "gtc" "isolated" "USDT" none none none none) = 0) ∧
    (delete_order cfgA env429 "BTCUSDT" none none "USDT" =
      Except.error "Either order_id or client_oid must be provided" ∧
    transportCalls (delete_order cfgA env429 "BTCUSDT" none none "USDT") = 0) :=
  validation_short_circuit cfgA env429 "BTCUSDT" "BUY" "0.01" "gtc" "isolated"
    "USDT" none false none none none none "BTCUSDT" "USDT" none none
    (Or.inl rfl) (Or.inl rfl) (Or.inl rfl)

/-! ### C8: drift recovery -/

/-- C8.  If the first attempt is an HTTP 400 whose exchange code lies in
the clock-skew set and the second attempt succeeds, the call
resynchronizes the clock exactly once, performs exactly two attempts
against the target endpoint, sleeps the fixed one-second drift pause, and
returns the raw success envelope (bitget_trader.py:157-166). -/
theorem drift_recovery (cfg : ApiConfig) (env : Env) (m ep : String)
    (ps : List (String × String)) (b : Option Json) (mr : Nat)
    (j succ : Json) (t t2 : String)
    (hmr : 0 < mr)
    (h0 : env.transport 0 = TransportResp.http 400 (some j) t)
    (hcode : jsonGetStr j "code" "" ∈ driftCodes)
    (h1 : env.transport 1 = TransportResp.http 200 (some succ) t2) :
    (request cfg env m ep ps b mr).attempts.length = 2 ∧
    (request cfg env m ep ps b mr).serverTimeCalls = 1 ∧
    (request cfg env m ep ps b mr).sleeps = [(1 : ℚ)] ∧
    (request cfg env m ep ps b mr).result = succ := by
  obtain ⟨k, rfl⟩ : ∃ k, mr = k + 1 := ⟨mr - 1, (Nat.succ_pred_eq_of_pos hmr).symm⟩
  refine ⟨?_, ?_, ?_, ?_⟩ <;>
    simp [request, requestLoop, h0, h1, hcode, mkResult, respDataOf]

/-- Witness for C8 at the concrete drift-then-success environment. -/
theorem drift_recovery_witness :
    (request cfgA envDrift200 "get" "api/v2/mix/account/accounts" [] none 3).attempts.length = 2 ∧
    (request cfgA envDrift200 "get" "api/v2/mix/account/accounts" [] none 3).serverTimeCalls = 1 ∧
    (request cfgA envDrift200 "get" "api/v2/mix/account/accounts" [] none 3).sleeps = [(1 : ℚ)] ∧
    (request cfgA envDrift200 "get" "api/v2/mix/account/accounts" [] none 3).result = respOk :=
  drift_recovery cfgA envDrift200 "get" "api/v2/mix/account/accounts" [] none 3
    respDrift respOk "drift" "ok" (by decide) rfl (by decide) rfl

/-! ### C10: exhaustion under persistent HTTP 429 -/

/-- C10.  Against an always-429 transport with `max_retries = 3`, exactly
4 attempts are performed and — because the rate-limit branch increments
and re-enters the loop without first checking the budget
(bitget_trader.py:184-189), unlike the server-error branch — a full
exponential-backoff sleep is incurred after the fourth and final attempt,
and the loop exits into the value
`{"status": "FAILED", "error": "Max retries exceeded"}`
(bitget_trader.py:215), which carries neither a status code nor a response
body. -/
theorem rate_limit_exhaustion (cfg : ApiConfig) (env : Env) (m ep : String)
    (ps : List (String × String)) (b : Option Json)
    (jbs : Nat → Option Json) (txts : Nat → String)
    (htr : ∀ n, env.transport n = TransportResp.http 429 (jbs n) (txts n)) :
    (request cfg env m ep ps b 3).attempts.length = 4 ∧
    (request cfg env m ep ps b 3).sleeps =
      [backoffDelay env 0, backoffDelay env 1, backoffDelay env 2, backoffDelay env 3] ∧
    (request cfg env m ep ps b 3).result = maxRetriesExceededValue ∧
    hasField maxRetriesExceededValue "status_code" = false ∧
    hasField maxRetriesExceededValue "response_data" = false := by
  refine ⟨?_, ?_, ?_, rfl, rfl⟩ <;>
    simp [request, requestLoop, htr, mkResult]

/-- Witness for C10 at the concrete always-429 environment. -/
theorem rate_limit_exhaustion_witness :
    (request cfgA env429 "get" "api/v2/mix/account/accounts" [] none 3).attempts.length = 4 ∧
    (request cfgA env429 "get" "api/v2/mix/account/accounts" [] none 3).sleeps =
      [backoffDelay env429 0, backoffDelay env429 1, backoffDelay env429 2,
        backoffDelay env429 3] ∧
    (request cfgA env429 "get" "api/v2/mix/account/accounts" [] none 3).result =
      maxRetriesExceededValue ∧
    hasField maxRetriesExceededValue "status_code" = false ∧
    hasField maxRetriesExceededValue "response_data" = false :=
  rate_limit_exhaustion cfgA env429 "get" "api/v2/mix/account/accounts" [] none
    (fun _ => none) (fun _ => "busy") (fun _ => rfl)

/-! ### C9: shape of the returned value -/

def envExn : Env := mkEnv (fun _ => TransportResp.exn true "Connection refused")

/-- C9 (counterexample).  The claim says every failure result carries a
`status_code` field; the failure produced by a persistent transport-level
exception is `{"status": "FAILED", "error": "Request error: ..."}`
(bitget_trader.py:205) and carries no `status_code`. -/
theorem exception_failure_lacks_status_code :
    (request cfgA envExn "get" "api/v2/mix/account/accounts" [] none 3).result =
      exnValue true "Connection refused" ∧
    jsonLookup (request cfgA envExn "get" "api/v2/mix/account/accounts" [] none 3).result
      "status" = some (Json.str "FAILED") ∧
    hasField (request cfgA envExn "get" "api/v2/mix/account/accounts" [] none 3).result
      "status_code" = false :=
  ⟨rfl, rfl, rfl⟩

theorem requestLoop_result_shape (env : Env) (att : Attempt) (mr : Nat) :
    ∀ (fuel : Nat) (st : LoopState),
      (∃ n j t, env.transport n = TransportResp.http 200 (some j) t ∧
        (requestLoop env att mr fuel st).result = j) ∨
      (jsonLookup (requestLoop env att mr fuel st).result "status" =
          some (Json.str "FAILED") ∧
        (hasField (requestLoop env att mr fuel st).result "status_code" = true ∨
          (hasField (requestLoop env att mr fuel st).result "error" = true ∧
           hasField (requestLoop env att mr fuel st).result "status_code" = false))) := by
  intro fuel
  induction fuel with
  | zero =>
    intro st
    right
    exact ⟨rfl, Or.inr ⟨rfl, rfl⟩⟩
  | succ fuel ih =>
    intro st
    cases htr : env.transport st.attemptIdx with
    | http status jsonBody text =>
      cases jsonBody with
      | some j =>
        by_cases h200 : status = 200
        · subst h200
          left
          refine ⟨st.attemptIdx, j, text, htr, ?_⟩
          simp [requestLoop, htr, mkResult]
        · simp only [requestLoop, htr]
          rw [if_neg h200]
          split_ifs <;>
            first
            | exact ih _
            | (right; exact ⟨rfl, Or.inl rfl⟩)
      | none =>
        simp only [requestLoop, htr]
        split_ifs <;>
          first
          | exact ih _
          | (right; exact ⟨rfl, Or.inl rfl⟩)
          | (right; exact ⟨rfl, Or.inr ⟨rfl, rfl⟩⟩)
    | exn isReq msg =>
      simp only [requestLoop, htr]
      split_ifs
      · right; exact ⟨rfl, Or.inr ⟨rfl, rfl⟩⟩
      · exact ih _

/-- C9 (amended).  Every call returns either the raw parsed success
envelope delivered by some HTTP 200 answer or an object carrying
`status = "FAILED"`; the failure carries a `status_code` on every
HTTP-status path, while the transport-exception values and the
loop-exhaustion value instead carry an `error` message and no
`status_code` (bitget_trader.py:205,211,215). -/
theorem request_result_shape (cfg : ApiConfig) (env : Env) (m ep : String)
    (ps : List (String × String)) (b : Option Json) (mr : Nat) :
    (∃ n j t, env.transport n = TransportResp.http 200 (some j) t ∧
      (request cfg env m ep ps b mr).result = j) ∨
    (jsonLookup (request cfg env m ep ps b mr).result "status" =
        some (Json.str "FAILED") ∧
      (hasField (request cfg env m ep ps b mr).result "status_code" = true ∨
        (hasField (request cfg env m ep ps b mr).result "error" = true ∧
         hasField (request cfg env m ep ps b mr).result "status_code" = false))) :=
  requestLoop_result_shape env _ mr (mr + 1) _

end BitgetTrader
